import Mathlib

/-!
Verification of the PDF text-extraction and settlement-amount-recovery
pipeline of the Iowa DNR scraper.

The embedding follows `src/scraper/pdf_extractor/pdf_extractor.py` and
`src/scraper/config/config.py`.  Text is modelled as `List Char`; Python
`re` patterns are modelled by a small backtracking matcher (`runRE`) with
Python search semantics (leftmost start, greedy or lazy preference order,
case-insensitive matching as under `re.IGNORECASE`); `float` parsing of the
cleaned numeral is modelled over `ℚ`.
-/

namespace DnrScraper

/-- Python `str.isspace` characters relevant here (ASCII whitespace set,
matching Python `str.strip()` on the ASCII plane). -/
def pyIsSpace (c : Char) : Bool :=
  c == ' ' || c == '\t' || c == '\n' || c == '\r' || c == '\x0b' || c == '\x0c'

/-- Python `str.strip()`: remove leading and trailing whitespace. -/
def pystrip (s : List Char) : List Char :=
  ((s.dropWhile pyIsSpace).reverse.dropWhile pyIsSpace).reverse

/-! ## OCR cleanup pass (`PDFExtractor._clean_ocr_text`)

Each substitution rule in the Python source is a single-character pattern
guarded by zero-width lookarounds, e.g. `(?<!\d)0(?!\d)` replaced by `O`.
`re.sub` finds the matches against the original string, so each rule is a
per-position rewrite whose context (previous and next character) is read
from the rule's input string, not from the partially rewritten output. -/

/-- Lookbehind `(?<!\d)`: the previous character (if any) is not a digit. -/
def prevNotDigit : Option Char → Bool
  | none => true
  | some p => !p.isDigit

/-- Lookahead `(?!\d)`: the next character (if any) is not a digit. -/
def nextOk (rest : List Char) : Bool :=
  match rest with
  | [] => true
  | c :: _ => !c.isDigit

/-- One pass of `re.sub(r"(?<!\d)d(?!\d)", r, text)` for a digit `d`:
replace every occurrence of `d` that is not adjacent to another digit.
`prev` threads the character immediately before the current position. -/
def fixLone (d r : Char) : Option Char → List Char → List Char
  | _, [] => []
  | prev, c :: rest =>
    (if c == d && prevNotDigit prev && nextOk rest then r else c) ::
      fixLone d r (some c) rest

/-- One pass of `re.sub(r"(?<!\$)\$(?!\d)", "S", text)`: replace every
dollar sign not preceded by a dollar sign and not followed by a digit. -/
def fixDollar : Option Char → List Char → List Char
  | _, [] => []
  | prev, c :: rest =>
    (if c == '$' && prev != some '$' && nextOk rest then 'S' else c) ::
      fixDollar (some c) rest

/-- `PDFExtractor._clean_ocr_text`: the five substitution passes applied in
the source's order: lone 0 to O, lone 1 to I, bare dollar to S, lone 8 to B,
lone 5 to S. -/
def clean_ocr_text (s : List Char) : List Char :=
  fixLone '5' 'S' none
    (fixLone '8' 'B' none
      (fixDollar none
        (fixLone '1' 'I' none
          (fixLone '0' 'O' none s))))

/-- Per-position cleanliness used by the idempotence claim: a character
`0`, `1`, `5` or `8` must be adjacent to a digit, and a dollar sign must be
immediately followed by a digit. -/
def cleanAt (prev : Option Char) (c : Char) (rest : List Char) : Bool :=
  if c == '0' || c == '1' || c == '5' || c == '8' then
    !(prevNotDigit prev && nextOk rest)
  else if c == '$' then
    !(nextOk rest)
  else
    true

/-- A text is clean when every position satisfies `cleanAt`: no lone
`0/1/5/8` and no dollar sign that is not followed by a digit. -/
def cleanText : Option Char → List Char → Bool
  | _, [] => true
  | prev, c :: rest => cleanAt prev c rest && cleanText (some c) rest

/-! ## Regex engine

A small abstract syntax covering exactly the constructs used by the
patterns in `PENALTY_PATTERNS`: literal characters, character classes
(explicit characters, `\d`, `\s`), sequencing, greedy `?`, greedy `*` over
a character class, the lazy `.*?`, and the single capturing group.  The
matcher is continuation-passing and explores alternatives in Python's
backtracking preference order. -/

inductive RE where
  | eps
  | chr (c : Char)
  | cls (chars : List Char) (digits : Bool) (spaces : Bool)
  | seq (a b : RE)
  | opt (a : RE)
  | starCls (chars : List Char) (digits : Bool) (spaces : Bool)
  | lazyDots
  | group (a : RE)
deriving DecidableEq

/-- Class membership under `re.IGNORECASE` (ASCII case folding). -/
def classMatches (chars : List Char) (digits spaces : Bool) (c : Char) : Bool :=
  chars.any (fun d => d.toLower == c.toLower) || (digits && c.isDigit) ||
    (spaces && pyIsSpace c)

/-- First-some alternative, modelling backtracking preference order. -/
def firstSome (a b : Option (List Char)) : Option (List Char) :=
  match a with
  | some x => some x
  | none => b

/-- Greedy Kleene star over a character class: prefer consuming more. -/
def starGreedy (chars : List Char) (digits spaces : Bool) :
    List Char → Option (List Char) →
    (List Char → Option (List Char) → Option (List Char)) → Option (List Char)
  | [], cap, k => k [] cap
  | c :: rest, cap, k =>
    if classMatches chars digits spaces c then
      firstSome (starGreedy chars digits spaces rest cap k) (k (c :: rest) cap)
    else
      k (c :: rest) cap

/-- Lazy `.*?` (any character except newline, prefer consuming fewer). -/
def lazyAny :
    List Char → Option (List Char) →
    (List Char → Option (List Char) → Option (List Char)) → Option (List Char)
  | s, cap, k =>
    firstSome (k s cap)
      (match s with
       | [] => none
       | c :: rest => if c == '\n' then none else lazyAny rest cap k)

/-- The backtracking matcher.  `cap` carries the content of the single
capturing group once it has been closed; `k` is the continuation receiving
the remaining suffix and the capture state. -/
def runRE : RE → List Char → Option (List Char) →
    (List Char → Option (List Char) → Option (List Char)) → Option (List Char)
  | .eps, s, cap, k => k s cap
  | .chr c, s, cap, k =>
    match s with
    | [] => none
    | c2 :: rest => if c2.toLower == c.toLower then k rest cap else none
  | .cls chars digits spaces, s, cap, k =>
    match s with
    | [] => none
    | c2 :: rest => if classMatches chars digits spaces c2 then k rest cap else none
  | .seq a b, s, cap, k => runRE a s cap (fun s2 cap2 => runRE b s2 cap2 k)
  | .opt a, s, cap, k => firstSome (runRE a s cap k) (k s cap)
  | .starCls chars digits spaces, s, cap, k => starGreedy chars digits spaces s cap k
  | .lazyDots, s, cap, k => lazyAny s cap k
  | .group a, s, cap, k =>
    runRE a s cap (fun s2 _ => k s2 (some (s.take (s.length - s2.length))))

/-- `re.search(pattern, text, re.IGNORECASE).group(1)`: try each start
position from the left and return the capture of the first match. -/
def searchCap (re : RE) : List Char → Option (List Char)
  | [] => runRE re [] none (fun _ cap => cap)
  | c :: rest =>
    match runRE re (c :: rest) none (fun _ cap => cap) with
    | some g => some g
    | none => searchCap re rest

/-! ## The pattern table (`scraper/config/config.py`, `PENALTY_PATTERNS`) -/

/-- A sequence of literal characters. -/
def lit : List Char → RE
  | [] => .eps
  | c :: rest => .seq (.chr c) (lit rest)

/-- Literal phrase from a string. -/
def litS (s : String) : RE := lit s.data

/-- `[\d,]+` -/
def numCls : RE := .seq (.cls [','] true false) (.starCls [','] true false)

/-- `[S5\d,]+` -/
def numClsS : RE :=
  .seq (.cls ['S', '5', ','] true false) (.starCls ['S', '5', ','] true false)

/-- `(?:\.\d{2})?` -/
def frac : RE :=
  .opt (.seq (.chr '.') (.seq (.cls [] true false) (.cls [] true false)))

/-- `\$?` -/
def optDollar : RE := .opt (.chr '$')

/-- `[\s\n]+` -/
def wsP : RE := .seq (.cls ['\n'] false true) (.starCls ['\n'] false true)

/-- `\s*` -/
def wsStar : RE := .starCls [] false true

/-- Sequence a list of fragments. -/
def seqs (l : List RE) : RE := l.foldr .seq .eps

/-- Phrase pattern `phrase\$?([\d,]+(?:\.\d{2})?)`. -/
def phrasePat (ph : String) : RE :=
  seqs [litS ph, optDollar, .group (.seq numCls frac)]

/-- Phrase pattern `phrase\$?([S5\d,]+(?:\.\d{2})?)` tolerating an OCR
`S`/`5` artifact inside the numeral. -/
def phrasePatS (ph : String) : RE :=
  seqs [litS ph, optDollar, .group (.seq numClsS frac)]

/-- `PENALTY_PATTERNS`, in the source's order. -/
def PENALTY_PATTERNS : List RE :=
  [phrasePat (r"administrative penalty of "),
   phrasePat (r"pay an administrative penalty of "),
   phrasePat (r"pay a penalty of "),
   phrasePat (r"penalty of "),
   phrasePat (r"pay "),
   phrasePat (r"shall pay "),
   phrasePat (r"in the amount of "),
   phrasePat (r"assessed a penalty of "),
   phrasePat (r"civil penalty of "),
   phrasePat (r"total penalty of "),
   phrasePat (r"monetary penalty of "),
   phrasePat (r"penalties totaling "),
   phrasePat (r"stipulated penalty of "),
   phrasePat (r"agrees to pay "),
   phrasePat (r"shall be assessed "),
   phrasePat (r"penalty in the amount of "),
   phrasePat (r"pay a "),
   phrasePat (r"administrative penalty in the amount of "),
   seqs [litS (r"administrative"), wsP, litS (r"penalty"), wsP, litS (r"of"), wsP,
         optDollar, .group (.seq numCls frac)],
   seqs [litS (r"pay"), wsP, litS (r"an"), wsP, litS (r"administrative"), wsP,
         litS (r"penalty"), wsP, litS (r"of"), wsP, optDollar,
         .group (.seq numCls frac)],
   phrasePatS (r"shall pay a "),
   phrasePatS (r"pay a "),
   seqs [litS (r"pay a "), optDollar, .group (.seq numClsS frac), wsStar,
         .opt (litS (r"civil")), wsStar, litS (r"penalty")],
   seqs [litS (r"shall pay"), .lazyDots, optDollar, .group (.seq numClsS frac)]]

/-! ## Amount recovery (`PDFExtractor.extract_settlement`) -/

/-- The `S` and `s` to `5` replacements applied to the numeral. -/
def sRepl (s : List Char) : List Char :=
  s.map (fun c => if c == 'S' || c == 's' then '5' else c)

/-- `re.sub(r"[^\d.,]", "", amount_str)`. -/
def keepNum (s : List Char) : List Char :=
  s.filter (fun c => c.isDigit || c == '.' || c == ',')

/-- `amount_str.replace(r",", "")`. -/
def stripCommas (s : List Char) : List Char :=
  s.filter (fun c => c != ',')

/-- Value of a digit list read in base 10. -/
def natOfDigits (s : List Char) : Nat :=
  s.foldl (fun n c => n * 10 + (c.toNat - '0'.toNat)) 0

/-- Syntactic part of Python `float()` restricted to strings of digits and
dots (the only characters that survive the cleanup above): accepts `d+`,
`d+.d*`, `.d+` and `d+.d+` and splits them at the dot; rejects the empty
string, a bare dot or more than one dot (`ValueError` in the source,
modelled as `none`). -/
def pyFloatParts (s : List Char) : Option (List Char × List Char) :=
  if s.all (fun c => c.isDigit || c == '.') && s.count '.' ≤ 1 &&
      s.any (fun c => c.isDigit) then
    some (s.takeWhile (fun c => c != '.'), (s.dropWhile (fun c => c != '.')).drop 1)
  else
    none

/-- Python `float()` on the cleaned numeral: the integer part plus the
fractional digits scaled by their count. -/
def pyFloat (s : List Char) : Option ℚ :=
  (pyFloatParts s).map
    (fun p => (natOfDigits p.1 : ℚ) + (natOfDigits p.2 : ℚ) / (10 ^ p.2.length : ℚ))

/-- The numeral cleanup and parse applied to a captured group:
strip, `S`/`s` to `5`, keep only digits, dots and commas, drop commas,
parse as a decimal. -/
def parseAmount (g : List Char) : Option ℚ :=
  pyFloat (stripCommas (keepNum (sRepl (pystrip g))))

/-- The value a single pattern contributes on a text: the parsed capture of
its first match, or `none` when it does not match or its capture fails to
parse. -/
def patternValue (p : RE) (t : List Char) : Option ℚ :=
  (searchCap p t).bind parseAmount

/-- The pattern loop of `extract_settlement`: on a structural match whose
capture fails to parse (`ValueError`), continue with the next pattern. -/
def findAmount : List RE → List Char → Option ℚ
  | [], _ => none
  | p :: ps, t =>
    match searchCap p t with
    | none => findAmount ps t
    | some g =>
      match parseAmount g with
      | some v => some v
      | none => findAmount ps t

/-- The extracted-text result dictionary `{"text": ...}`. -/
structure TextResult where
  text : List Char
deriving DecidableEq

/-- `PDFExtractor.extract_settlement`: `None` input short-circuits;
otherwise scan the pattern table in order. -/
def extract_settlement (td : Option TextResult) : Option ℚ :=
  match td with
  | none => none
  | some t => findAmount PENALTY_PATTERNS t.text

/-! ## First-match characterization of the pattern loop -/

lemma patternValue_none_of_search (p : RE) (t : List Char)
    (h : searchCap p t = none) : patternValue p t = none := by
  simp [patternValue, h]

lemma findAmount_cons_some (p : RE) (ps : List RE) (t : List Char) (v : ℚ)
    (h : patternValue p t = some v) : findAmount (p :: ps) t = some v := by
  unfold patternValue at h
  cases hs : searchCap p t with
  | none => rw [hs] at h; simp at h
  | some g =>
    rw [hs] at h
    simp only [Option.some_bind] at h
    simp [findAmount, hs, h]

lemma findAmount_cons_none (p : RE) (ps : List RE) (t : List Char)
    (h : patternValue p t = none) : findAmount (p :: ps) t = findAmount ps t := by
  unfold patternValue at h
  cases hs : searchCap p t with
  | none => simp [findAmount, hs]
  | some g =>
    rw [hs] at h
    simp only [Option.some_bind] at h
    simp [findAmount, hs, h]

lemma findAmount_none_iff (ps : List RE) (t : List Char) :
    findAmount ps t = none ↔ ∀ p ∈ ps, patternValue p t = none := by
  induction ps with
  | nil => simp [findAmount]
  | cons p ps ih =>
    cases hv : patternValue p t with
    | some v =>
      rw [findAmount_cons_some p ps t v hv]
      constructor
      · intro h; exact absurd h (by simp)
      · intro h; exact absurd (h p (List.mem_cons_self p ps)) (by simp [hv])
    | none =>
      rw [findAmount_cons_none p ps t hv, ih]
      constructor
      · intro h q hq
        rcases List.mem_cons.mp hq with rfl | hq2
        · exact hv
        · exact h q hq2
      · intro h q hq; exact h q (List.mem_cons_of_mem p hq)

lemma findAmount_append_first (l1 : List RE) (p : RE) (l2 : List RE)
    (t : List Char) (v : ℚ)
    (h1 : ∀ q ∈ l1, patternValue q t = none) (h2 : patternValue p t = some v) :
    findAmount (l1 ++ p :: l2) t = some v := by
  induction l1 with
  | nil => simpa using findAmount_cons_some p l2 t v h2
  | cons q l1 ih =>
    rw [List.cons_append,
      findAmount_cons_none q _ t (h1 q (List.mem_cons_self q l1))]
    exact ih fun r hr => h1 r (List.mem_cons_of_mem q hr)

/-- Evaluation helper: a pattern's value on a text, from its capture and
the capture's parse. -/
lemma patternValue_eval (p : RE) (t g : List Char) (q : ℚ)
    (h1 : searchCap p t = some g) (h2 : parseAmount g = some q) :
    patternValue p t = some q := by
  unfold patternValue
  rw [h1]
  simpa using h2

/-- Evaluation helper: the parse of a capture, from the split of its
cleaned digits and the value of the two digit groups. -/
lemma parseAmount_eval (g ip fp : List Char) (q : ℚ)
    (h1 : pyFloatParts (stripCommas (keepNum (sRepl (pystrip g)))) = some (ip, fp))
    (h2 : (natOfDigits ip : ℚ) + (natOfDigits fp : ℚ) / (10 ^ fp.length : ℚ) = q) :
    parseAmount g = some q := by
  unfold parseAmount pyFloat
  rw [h1]
  simpa using h2

/-- Evaluation helper for captures whose cleaned form has no dot. -/
lemma parseAmount_eval_nat (g ip : List Char) (n : Nat)
    (h1 : pyFloatParts (stripCommas (keepNum (sRepl (pystrip g)))) = some (ip, []))
    (h2 : natOfDigits ip = n) :
    parseAmount g = some (n : ℚ) := by
  refine parseAmount_eval g ip [] _ h1 ?_
  rw [h2]
  norm_num [natOfDigits]

/-! ## Claims C2 to C5 (`extract_settlement`) -/

/-- Claim C4: `extract_settlement` returns `none` exactly when no pattern
yields a parsable capture, and otherwise returns the value of the first
pattern, in table order, whose first match has a capture that parses; a
structural match whose capture fails to parse is skipped like a non-match
(both cases are `patternValue ... = none`). -/
theorem settlement_first_parse_characterization (t : List Char) :
    (extract_settlement (some ⟨t⟩) = none ↔
      ∀ p ∈ PENALTY_PATTERNS, patternValue p t = none)
    ∧ ∀ (v : ℚ) (l1 : List RE) (p : RE) (l2 : List RE),
        PENALTY_PATTERNS = l1 ++ p :: l2 →
        (∀ q ∈ l1, patternValue q t = none) →
        patternValue p t = some v →
        extract_settlement (some ⟨t⟩) = some v := by
  constructor
  · exact findAmount_none_iff PENALTY_PATTERNS t
  · intro v l1 p l2 hsplit h1 h2
    show findAmount PENALTY_PATTERNS t = some v
    rw [hsplit]
    exact findAmount_append_first l1 p l2 t v h1 h2

/-- Witness for C4 at a concrete text in which the pattern `penalty of `
matches structurally but captures only a comma (which fails to parse, as
`float` on the empty residue raises), so the loop continues and the later
pattern `pay ` supplies the value 750. -/
theorem settlement_first_parse_characterization_witness :
    extract_settlement (some ⟨(r"penalty of , and agrees to pay 750 now").data⟩)
      = some (750 : ℚ) :=
  (settlement_first_parse_characterization
      ((r"penalty of , and agrees to pay 750 now").data)).2
    750
    [phrasePat (r"administrative penalty of "),
     phrasePat (r"pay an administrative penalty of "),
     phrasePat (r"pay a penalty of "),
     phrasePat (r"penalty of ")]
    (phrasePat (r"pay "))
    (PENALTY_PATTERNS.drop 5)
    (by rfl) (by decide)
    (patternValue_eval _ _ ((r"750").data) _ (by decide)
      (parseAmount_eval_nat _ ((r"750").data) 750 (by decide) (by decide)))

/-- Claim C5: pattern priority is positional in the table, not in the text:
if every pattern before `p` in the table yields no parsable value and `p`
yields `v`, then `v` is returned even when a pattern after `p` in the table
yields a different parsable value `w` somewhere in the text. -/
theorem settlement_priority_order (t : List Char) (v w : ℚ)
    (l1 : List RE) (p : RE) (l2 : List RE)
    (hsplit : PENALTY_PATTERNS = l1 ++ p :: l2)
    (h1 : ∀ q ∈ l1, patternValue q t = none)
    (h2 : patternValue p t = some v)
    (_h3 : ∃ q ∈ l2, patternValue q t = some w)
    (_h4 : w ≠ v) :
    extract_settlement (some ⟨t⟩) = some v := by
  show findAmount PENALTY_PATTERNS t = some v
  rw [hsplit]
  exact findAmount_append_first l1 p l2 t v h1 h2

/-- Witness for C5: the catch-all match (`pay ` capturing 750) sits earlier
in the text than the specific phrase (`administrative penalty of `
capturing 500), yet the table order decides and 500 is returned. -/
theorem settlement_priority_order_witness :
    extract_settlement (some
      ⟨(r"shall pay $750 because of the administrative penalty of $500 imposed").data⟩)
      = some (500 : ℚ) :=
  settlement_priority_order
    ((r"shall pay $750 because of the administrative penalty of $500 imposed").data)
    500 750 [] (phrasePat (r"administrative penalty of "))
    (PENALTY_PATTERNS.drop 1)
    (by rfl) (by decide)
    (patternValue_eval _ _ ((r"500").data) _ (by decide)
      (parseAmount_eval_nat _ ((r"500").data) 500 (by decide) (by decide)))
    ⟨phrasePat (r"pay "), by decide,
      patternValue_eval _ _ ((r"750").data) _ (by decide)
        (parseAmount_eval_nat _ ((r"750").data) 750 (by decide) (by decide))⟩
    (by norm_num)

/-- Claim C3: whenever the first match of the highest-priority pattern
`administrative penalty of \$?([\d,]+(?:\.\d{2})?)` captures `1,234.56`,
`extract_settlement` returns the decimal 1234.56 (written `123456 / 100`):
the capture parses after comma stripping, and the first table entry wins. -/
theorem settlement_admin_penalty_decimal (t : List Char)
    (h : searchCap (phrasePat (r"administrative penalty of ")) t
      = some ((r"1,234.56").data)) :
    extract_settlement (some ⟨t⟩) = some ((123456 : ℚ) / 100) := by
  show findAmount PENALTY_PATTERNS t = some ((123456 : ℚ) / 100)
  have hv : patternValue (phrasePat (r"administrative penalty of ")) t
      = some ((123456 : ℚ) / 100) := by
    refine patternValue_eval _ t ((r"1,234.56").data) _ h ?_
    refine parseAmount_eval _ ((r"1234").data) ((r"56").data) _ (by decide) ?_
    rw [show natOfDigits ((r"1234").data) = 1234 from by decide,
      show natOfDigits ((r"56").data) = 56 from by decide,
      show ((r"56").data).length = 2 from by decide]
    norm_num
  exact findAmount_cons_some _ _ t _ hv

/-- Witness for C3 at the text consisting of the phrase itself. -/
theorem settlement_admin_penalty_decimal_witness :
    extract_settlement (some ⟨(r"administrative penalty of $1,234.56").data⟩)
      = some ((123456 : ℚ) / 100) :=
  settlement_admin_penalty_decimal
    ((r"administrative penalty of $1,234.56").data) (by decide)

/-- Counterexample for C2: on the text `shall pay a S5,000 civil penalty`
(no higher-priority pattern matches, the first matching pattern is
`shall pay a \$?([S5\d,]+(?:\.\d{2})?)` capturing `S5,000`), the code
returns 55000, not the 5000 the claim states: the `S` to `5` repair turns
the OCR-confused dollar sign into a leading digit 5. -/
theorem settlement_s5000_counterexample :
    extract_settlement (some ⟨(r"shall pay a S5,000 civil penalty").data⟩)
      = some (55000 : ℚ) ∧ (55000 : ℚ) ≠ (5000 : ℚ) := by
  constructor
  · show findAmount PENALTY_PATTERNS ((r"shall pay a S5,000 civil penalty").data)
      = some (55000 : ℚ)
    rw [show PENALTY_PATTERNS = PENALTY_PATTERNS.take 20 ++
      phrasePatS (r"shall pay a ") :: PENALTY_PATTERNS.drop 21 from rfl]
    refine findAmount_append_first _ _ _ _ _
      (fun q hq => patternValue_none_of_search q _
        ((by decide : ∀ q ∈ PENALTY_PATTERNS.take 20,
          searchCap q ((r"shall pay a S5,000 civil penalty").data) = none) q hq)) ?_
    exact patternValue_eval _ _ ((r"S5,000").data) _ (by decide)
      (parseAmount_eval_nat _ ((r"55000").data) 55000 (by decide) (by decide))
  · norm_num

/-- Amended C2: for every text on which none of the twenty higher-priority
patterns matches and the first match of `shall pay a \$?([S5\d,]+...)`
captures `S5,000`, `extract_settlement` returns 55000 (the captured
`S5,000` becomes `55,000` under the `S` to `5` repair, then 55000 after
comma stripping). -/
theorem settlement_s5000_amended (t : List Char)
    (h1 : ∀ q ∈ PENALTY_PATTERNS.take 20, searchCap q t = none)
    (h2 : searchCap (phrasePatS (r"shall pay a ")) t = some ((r"S5,000").data)) :
    extract_settlement (some ⟨t⟩) = some (55000 : ℚ) := by
  show findAmount PENALTY_PATTERNS t = some (55000 : ℚ)
  have hsplit : PENALTY_PATTERNS = PENALTY_PATTERNS.take 20 ++
      phrasePatS (r"shall pay a ") :: PENALTY_PATTERNS.drop 21 := by rfl
  rw [hsplit]
  refine findAmount_append_first _ _ _ t _
    (fun q hq => patternValue_none_of_search q t (h1 q hq)) ?_
  exact patternValue_eval _ t ((r"S5,000").data) _ h2
    (parseAmount_eval_nat _ ((r"55000").data) 55000 (by decide) (by decide))

/-- Witness for the amended C2 at the text of the counterexample. -/
theorem settlement_s5000_amended_witness :
    extract_settlement (some ⟨(r"shall pay a S5,000 civil penalty").data⟩)
      = some (55000 : ℚ) :=
  settlement_s5000_amended ((r"shall pay a S5,000 civil penalty").data)
    (by decide) (by decide)

/-! ## Structure of the cleanup passes -/

/-- The character seen by a lookbehind at position `i` when the scan
started with context `prev`. -/
def ctxPrev (prev : Option Char) (s : List Char) : Nat → Option Char
  | 0 => prev
  | Nat.succ j => s.get? j

/-- Lookahead `(?!\d)` phrased on an optional character. -/
def nextNotDigitO : Option Char → Bool
  | none => true
  | some c => !c.isDigit

lemma nextOk_eq (rest : List Char) : nextOk rest = nextNotDigitO rest.head? := by
  cases rest <;> rfl

/-- Index-wise characterization of a lone-digit substitution pass. -/
lemma fixLone_get (d r : Char) (s : List Char) :
    ∀ (prev : Option Char) (i : Nat),
      (fixLone d r prev s).get? i = (s.get? i).map (fun c =>
        if c == d && prevNotDigit (ctxPrev prev s i) &&
            nextNotDigitO (s.get? (i + 1)) then r else c) := by
  induction s with
  | nil => intro prev i; simp [fixLone]
  | cons c rest ih =>
    intro prev i
    cases i with
    | zero =>
      simp only [fixLone, List.get?_cons_zero, List.get?_cons_succ,
        Option.map_some', ctxPrev, nextOk_eq]
      cases rest <;> rfl
    | succ j =>
      simp only [fixLone, List.get?_cons_succ]
      rw [ih (some c) j]
      cases j with
      | zero => simp [ctxPrev]
      | succ k => simp [ctxPrev]

/-- Index-wise characterization of the bare-dollar substitution pass. -/
lemma fixDollar_get (s : List Char) :
    ∀ (prev : Option Char) (i : Nat),
      (fixDollar prev s).get? i = (s.get? i).map (fun c =>
        if c == '$' && (ctxPrev prev s i != some '$') &&
            nextNotDigitO (s.get? (i + 1)) then 'S' else c) := by
  induction s with
  | nil => intro prev i; simp [fixDollar]
  | cons c rest ih =>
    intro prev i
    cases i with
    | zero =>
      simp only [fixDollar, List.get?_cons_zero, List.get?_cons_succ,
        Option.map_some', ctxPrev, nextOk_eq]
      cases rest <;> rfl
    | succ j =>
      simp only [fixDollar, List.get?_cons_succ]
      rw [ih (some c) j]
      cases j with
      | zero => simp [ctxPrev]
      | succ k => simp [ctxPrev]

lemma map_keep_of_ne (c d r : Char) (hne : (c == d) = false) (A B : Bool) :
    (if c == d && A && B then r else c) = c := by
  rw [hne]
  simp

lemma ite_char_ne (b : Bool) (r c x : Char) (hr : r ≠ x) (hc : c ≠ x) :
    (if b = true then r else c) ≠ x := by
  cases b <;> simp [hr, hc]

lemma ite_char_isDigit_false (b : Bool) (r c : Char) (hr : r.isDigit = false)
    (hc : c.isDigit = false) : (if b = true then r else c).isDigit = false := by
  cases b <;> simp [hr, hc]

/-- A lone-digit pass whose replacement is not `$` never creates a `$`. -/
lemma fixLone_ne_dollar (d r : Char) (hr : r ≠ '$') (prev : Option Char)
    (s : List Char) (j : Nat) (h : s.get? j ≠ some '$') :
    (fixLone d r prev s).get? j ≠ some '$' := by
  rw [fixLone_get]
  cases hj : s.get? j with
  | none => simp
  | some c =>
    have hc : c ≠ '$' := fun he => h (by rw [hj, he])
    simp only [Option.map_some']
    intro hcontra
    exact ite_char_ne _ r c '$' hr hc (Option.some.inj hcontra)

/-- A lone-digit pass whose replacement is not a digit never creates a
digit. -/
lemma fixLone_nondigit (d r : Char) (hr : r.isDigit = false)
    (prev : Option Char) (s : List Char) (j : Nat)
    (h : nextNotDigitO (s.get? j) = true) :
    nextNotDigitO ((fixLone d r prev s).get? j) = true := by
  rw [fixLone_get]
  cases hj : s.get? j with
  | none => simp [nextNotDigitO]
  | some c =>
    rw [hj] at h
    simp only [nextNotDigitO, Bool.not_eq_true'] at h
    simp only [Option.map_some', nextNotDigitO, Bool.not_eq_true']
    exact ite_char_isDigit_false _ r c hr h

/-! ## Claims C7, C8 and C10 (`_clean_ocr_text`) -/

lemma cleanAt_digit (prev : Option Char) (d : Char) (rest : List Char)
    (hd : (d == '0' || d == '1' || d == '5' || d == '8') = true)
    (h : cleanAt prev d rest = true) :
    (prevNotDigit prev && nextOk rest) = false := by
  unfold cleanAt at h
  rw [if_pos hd] at h
  cases hb : prevNotDigit prev && nextOk rest
  · rfl
  · rw [hb] at h; simp at h

lemma cleanAt_dollar (prev : Option Char) (rest : List Char)
    (h : cleanAt prev '$' rest = true) : nextOk rest = false := by
  unfold cleanAt at h
  rw [if_neg (by decide), if_pos (by decide)] at h
  cases hb : nextOk rest
  · rfl
  · rw [hb] at h; simp at h

/-- On clean text a lone-digit pass is the identity. -/
lemma fixLone_id_of_clean (d r : Char)
    (hd : (d == '0' || d == '1' || d == '5' || d == '8') = true) (s : List Char) :
    ∀ prev, cleanText prev s = true → fixLone d r prev s = s := by
  induction s with
  | nil => intro prev _; rfl
  | cons c rest ih =>
    intro prev h
    simp only [cleanText, Bool.and_eq_true] at h
    obtain ⟨h1, h2⟩ := h
    simp only [fixLone]
    rw [ih (some c) h2]
    by_cases hcd : (c == d) = true
    · have hc : c = d := by simpa using hcd
      subst hc
      have hb := cleanAt_digit prev c rest hd h1
      simp [Bool.and_assoc, hb]
    · have hf : (c == d) = false := by
        cases hcc : c == d
        · rfl
        · exact absurd hcc hcd
      simp [hf]

/-- On clean text the bare-dollar pass is the identity. -/
lemma fixDollar_id_of_clean (s : List Char) :
    ∀ prev, cleanText prev s = true → fixDollar prev s = s := by
  induction s with
  | nil => intro prev _; rfl
  | cons c rest ih =>
    intro prev h
    simp only [cleanText, Bool.and_eq_true] at h
    obtain ⟨h1, h2⟩ := h
    simp only [fixDollar]
    rw [ih (some c) h2]
    by_cases hcd : (c == '$') = true
    · have hc : c = '$' := by simpa using hcd
      subst hc
      have hb := cleanAt_dollar prev rest h1
      simp [hb]
    · have hf : (c == '$') = false := by
        cases hcc : c == '$'
        · rfl
        · exact absurd hcc hcd
      simp [hf]

/-- Claim C7: on a text with no lone `0/1/5/8` and no dollar sign that is
not immediately followed by a digit, the cleanup pass is the identity, so
applying it twice equals applying it once. -/
theorem clean_idempotent_on_clean (s : List Char)
    (h : cleanText none s = true) :
    clean_ocr_text (clean_ocr_text s) = clean_ocr_text s := by
  have hid : clean_ocr_text s = s := by
    unfold clean_ocr_text
    rw [fixLone_id_of_clean '0' 'O' (by decide) s none h,
      fixLone_id_of_clean '1' 'I' (by decide) s none h,
      fixDollar_id_of_clean s none h,
      fixLone_id_of_clean '8' 'B' (by decide) s none h,
      fixLone_id_of_clean '5' 'S' (by decide) s none h]
  rw [hid]
  exact hid

/-- Witness for C7 at a concrete clean text (its `$` is followed by a
digit, and its digits are adjacent to digits). -/
theorem clean_idempotent_on_clean_witness :
    cleanText none ((r"He paid $50 promptly").data) = true ∧
    clean_ocr_text (clean_ocr_text ((r"He paid $50 promptly").data))
      = clean_ocr_text ((r"He paid $50 promptly").data) :=
  ⟨by decide, clean_idempotent_on_clean ((r"He paid $50 promptly").data) (by decide)⟩

/-- Counterexample for C8: in the text `$$` the second dollar sign is not
followed by a digit, yet the cleanup leaves it unchanged (the rule's
lookbehind `(?<!\$)` rejects a dollar preceded by a dollar), so not every
bare currency glyph is replaced by `S`. -/
theorem clean_dollar_counterexample :
    ((r"$$").data.get? 1 = some '$') ∧ ((r"$$").data.get? 2 = none) ∧
      (clean_ocr_text ((r"$$").data)).get? 1 = some '$' := by
  exact ⟨by decide, by decide, by decide⟩

/-- Amended C8: every dollar sign that is not preceded by another dollar
sign and not immediately followed by a digit is replaced by `S` (the five
substitution rules run in the fixed order lone-0, lone-1, currency, lone-8,
lone-5, and the first two passes can neither create a dollar sign nor a
digit, while the last two leave `S` unchanged). -/
theorem clean_dollar_amended (s : List Char) (i : Nat)
    (h1 : s.get? i = some '$')
    (h2 : ctxPrev none s i ≠ some '$')
    (h3 : nextNotDigitO (s.get? (i + 1)) = true) :
    (clean_ocr_text s).get? i = some 'S' := by
  have g0 : (fixLone '0' 'O' none s).get? i = some '$' := by
    rw [fixLone_get, h1]
    simp only [Option.map_some']
    rw [map_keep_of_ne '$' '0' 'O' (by decide)]
  have g1 : (fixLone '1' 'I' none (fixLone '0' 'O' none s)).get? i = some '$' := by
    rw [fixLone_get, g0]
    simp only [Option.map_some']
    rw [map_keep_of_ne '$' '1' 'I' (by decide)]
  have p1 : ctxPrev none (fixLone '1' 'I' none (fixLone '0' 'O' none s)) i
      ≠ some '$' := by
    cases i with
    | zero => simp [ctxPrev]
    | succ j =>
      show (fixLone '1' 'I' none (fixLone '0' 'O' none s)).get? j ≠ some '$'
      exact fixLone_ne_dollar '1' 'I' (by decide) none _ j
        (fixLone_ne_dollar '0' 'O' (by decide) none s j h2)
  have n1 : nextNotDigitO
      ((fixLone '1' 'I' none (fixLone '0' 'O' none s)).get? (i + 1)) = true :=
    fixLone_nondigit '1' 'I' (by decide) none _ (i + 1)
      (fixLone_nondigit '0' 'O' (by decide) none s (i + 1) h3)
  have g2 : (fixDollar none
      (fixLone '1' 'I' none (fixLone '0' 'O' none s))).get? i = some 'S' := by
    rw [fixDollar_get, g1]
    simp only [Option.map_some']
    have hbne : (ctxPrev none (fixLone '1' 'I' none (fixLone '0' 'O' none s)) i
        != some '$') = true := by
      simpa [bne_iff_ne] using p1
    rw [hbne, n1]
    simp
  have g3 : (fixLone '8' 'B' none (fixDollar none
      (fixLone '1' 'I' none (fixLone '0' 'O' none s)))).get? i = some 'S' := by
    rw [fixLone_get, g2]
    simp only [Option.map_some']
    rw [map_keep_of_ne 'S' '8' 'B' (by decide)]
  show (fixLone '5' 'S' none (fixLone '8' 'B' none (fixDollar none
    (fixLone '1' 'I' none (fixLone '0' 'O' none s))))).get? i = some 'S'
  rw [fixLone_get, g3]
  simp only [Option.map_some']
  rw [map_keep_of_ne 'S' '5' 'S' (by decide)]

/-- Witness for the amended C8 at a concrete text whose `$` stands between
spaces. -/
theorem clean_dollar_amended_witness :
    (clean_ocr_text ((r"fee $ due").data)).get? 4 = some 'S' :=
  clean_dollar_amended ((r"fee $ due").data) 4 (by decide) (by decide) (by decide)

/-- Claim C10: the cleanup pass is not idempotent on arbitrary text: on
`$5` the first pass rewrites the lone `5` to `S` (yielding `$S`), which
turns the dollar sign into a bare one, and the second pass rewrites it to
`S` (yielding `SS`). -/
theorem clean_not_idempotent :
    clean_ocr_text (clean_ocr_text ((r"$5").data))
      ≠ clean_ocr_text ((r"$5").data) := by
  decide

/-! ## The extraction pipeline (`PDFExtractor.extract_from_pdf`)

The collaborators (HTTP fetch, pdfplumber, tempfile write, pdf2image
conversion, per-page OCR) are modelled as an environment of `Except`-valued
oracles: `Except.error` stands for the collaborator raising an exception at
that call site.  Filesystem effects of `_extract_with_ocr` (creation and
deletion of the temporary PDF, invocation of the rasterizer) are recorded
as an event trace; an empty trace means the recognition path was never
entered. -/

inductive FsEvent where
  | tempCreated
  | rasterized
  | tempDeleted
deriving DecidableEq

structure PdfEnv where
  fetch : Except Unit (List Char)
  plumberPages : Except Unit (List (Option (List Char)))
  writeTemp : Except Unit Unit
  convert : Except Unit (List (Except Unit (List Char)))
  unlinkOk : Bool

/-- `PDFExtractor._extract_with_pdfplumber`: concatenate the non-empty page
texts with a newline after each, strip, and return the result; any
exception inside is caught and yields `None`. -/
def extractWithPdfplumber (env : PdfEnv) : Option (List Char) :=
  match env.plumberPages with
  | Except.error _ => none
  | Except.ok pages =>
    some (pystrip (pages.foldl (fun acc p =>
      match p with
      | none => acc
      | some pt => if pt = [] then acc else acc ++ pt ++ ['\n']) []))

/-- The per-page loop of `_extract_with_ocr`: a page whose OCR raises is
skipped, a page whose text strips to empty is skipped, other page texts are
appended in page order. -/
def ocrPages (pages : List (Except Unit (List Char))) : List (List Char) :=
  pages.foldl (fun acc p =>
    match p with
    | Except.error _ => acc
    | Except.ok t => if pystrip t = [] then acc else acc ++ [t]) []

/-- `PDFExtractor._extract_with_ocr`.  The temporary file is created and
then written; if the write raises, the outer handler returns `None` before
the inner `try/finally` is entered, so no deletion is recorded.  Otherwise
the conversion and page loop run inside the inner `try`, the `finally`
deletes the temporary file (unless `os.unlink` itself fails, which is
caught and logged), and a conversion error is then caught by the outer
handler. -/
def extractWithOcr (env : PdfEnv) : Option (List Char) × List FsEvent :=
  match env.writeTemp with
  | Except.error _ => (none, [FsEvent.tempCreated])
  | Except.ok _ =>
    let inner : Except Unit (Option (List Char)) :=
      match env.convert with
      | Except.error _ => Except.error ()
      | Except.ok pages =>
        let texts := ocrPages pages
        if texts = [] then Except.ok none
        else Except.ok (some (List.intercalate ['\n', '\n'] texts))
    let evs := [FsEvent.tempCreated, FsEvent.rasterized] ++
      (if env.unlinkOk then [FsEvent.tempDeleted] else [])
    match inner with
    | Except.error _ => (none, evs)
    | Except.ok r => (r, evs)

/-- The OCR fallback branch of `extract_from_pdf`: accept the OCR text when
it is non-empty and its trimmed length exceeds 200, returning it cleaned;
otherwise return `None`. -/
def ocrBranch (env : PdfEnv) : Option TextResult × List FsEvent :=
  match extractWithOcr env with
  | (some t, ev) =>
    if t ≠ [] ∧ 200 < (pystrip t).length then (some ⟨clean_ocr_text t⟩, ev)
    else (none, ev)
  | (none, ev) => (none, ev)

/-- `PDFExtractor.extract_from_pdf`: fetch, try pdfplumber, accept its text
when non-empty with trimmed length above 200, otherwise fall back to OCR;
a fetch exception is caught by the top-level handler and yields `None`. -/
def extract_from_pdf (env : PdfEnv) : Option TextResult × List FsEvent :=
  match env.fetch with
  | Except.error _ => (none, [])
  | Except.ok _ =>
    match extractWithPdfplumber env with
    | some s =>
      if s ≠ [] ∧ 200 < (pystrip s).length then (some ⟨s⟩, [])
      else ocrBranch env
    | none => ocrBranch env

/-- Entering the OCR path always records at least the temp-file creation. -/
lemma extractWithOcr_events_ne_nil (env : PdfEnv) :
    (extractWithOcr env).2 ≠ [] := by
  unfold extractWithOcr
  cases env.writeTemp with
  | error e => simp
  | ok u =>
    cases env.convert with
    | error e => cases env.unlinkOk <;> simp
    | ok pages => cases env.unlinkOk <;> dsimp only <;> split <;> simp

lemma ocrBranch_events (env : PdfEnv) :
    (ocrBranch env).2 = (extractWithOcr env).2 := by
  unfold ocrBranch
  rcases h : extractWithOcr env with ⟨o, ev⟩
  cases o with
  | none => rfl
  | some t =>
    dsimp only
    split <;> rfl

lemma ocrBranch_none_of_short (env : PdfEnv)
    (h : ∀ u, (extractWithOcr env).1 = some u → (pystrip u).length ≤ 200) :
    (ocrBranch env).1 = none := by
  unfold ocrBranch
  rcases he : extractWithOcr env with ⟨o, ev⟩
  cases o with
  | none => rfl
  | some u =>
    have hu : (pystrip u).length ≤ 200 := h u (by rw [he])
    dsimp only
    rw [if_neg (fun hcond => absurd hcond.2 (by omega))]

/-! ## Claims C1, C6 and C9 (`extract_from_pdf`, `_extract_with_ocr`) -/

/-- Claim C1: once the fetch has succeeded, the recognition path is entered
(observable as a non-empty effect trace) exactly when the structured result
is absent, empty or of trimmed length at most 200; and when the trimmed
structured text exceeds 200 characters it is returned as the result with no
recognition effects at all. -/
theorem extract_gate_ocr_iff (env : PdfEnv) (b : List Char)
    (hf : env.fetch = Except.ok b) :
    ((extract_from_pdf env).2 ≠ [] ↔
      ∀ s, extractWithPdfplumber env = some s → (pystrip s).length ≤ 200)
    ∧ ∀ s, extractWithPdfplumber env = some s → 200 < (pystrip s).length →
        extract_from_pdf env = (some ⟨s⟩, []) := by
  have hbody : extract_from_pdf env =
      match extractWithPdfplumber env with
      | some s =>
        if s ≠ [] ∧ 200 < (pystrip s).length then (some ⟨s⟩, []) else ocrBranch env
      | none => ocrBranch env := by
    unfold extract_from_pdf
    rw [hf]
  cases hp : extractWithPdfplumber env with
  | none =>
    rw [hp] at hbody
    dsimp only at hbody
    constructor
    · rw [hbody]
      constructor
      · intro _ s hs
        exact absurd hs (by simp)
      · intro _
        rw [ocrBranch_events]
        exact extractWithOcr_events_ne_nil env
    · intro s hs
      exact absurd hs (by simp)
  | some s =>
    rw [hp] at hbody
    dsimp only at hbody
    by_cases hc : s ≠ [] ∧ 200 < (pystrip s).length
    · rw [if_pos hc] at hbody
      constructor
      · rw [hbody]
        constructor
        · intro hne
          exact absurd rfl hne
        · intro hall
          exact absurd (hall s rfl) (by omega)
      · intro s2 hs2 _
        have he : s = s2 := Option.some.inj hs2
        rw [hbody]
        rw [he]
    · rw [if_neg hc] at hbody
      constructor
      · rw [hbody]
        constructor
        · intro _ s2 hs2
          have he : s = s2 := Option.some.inj hs2
          subst he
          by_cases hnil : s = []
          · subst hnil
            decide
          · have hle : ¬200 < (pystrip s).length := fun hl => hc ⟨hnil, hl⟩
            omega
        · intro _
          rw [ocrBranch_events]
          exact extractWithOcr_events_ne_nil env
      · intro s2 hs2 hlen
        have he : s = s2 := Option.some.inj hs2
        subst he
        have hnil : s ≠ [] := by
          intro hn
          subst hn
          exact absurd hlen (by decide)
        exact absurd ⟨hnil, hlen⟩ hc

/-- Witness for C1 at an environment whose structured extraction yields the
empty text: the effect trace is non-empty, i.e. recognition was entered. -/
theorem extract_gate_ocr_iff_witness :
    (extract_from_pdf
      ⟨Except.ok [], Except.ok [], Except.ok (), Except.error (), true⟩).2 ≠ [] :=
  ((extract_gate_ocr_iff
      ⟨Except.ok [], Except.ok [], Except.ok (), Except.error (), true⟩
      [] rfl).1).mpr
    (fun s hs => by
      have h2 : some ([] : List Char) = some s := hs
      injection h2 with h3
      subst h3
      decide)

/-- Claim C6: `extract_from_pdf` is total with an optional result; a fetch
exception yields `None` with no effects, a byte input on which both the
structured reader and the rasterizer raise yields `None`, and whenever the
structured text is absent or short and the recognition output is absent or
short, the result is `None` (every collaborator exception is modelled as
`Except.error` and none escapes the function). -/
theorem extract_total_on_failures (env : PdfEnv) :
    (env.fetch = Except.error () → extract_from_pdf env = (none, []))
    ∧ (env.plumberPages = Except.error () → env.convert = Except.error () →
        (extract_from_pdf env).1 = none)
    ∧ ((∀ s, extractWithPdfplumber env = some s → (pystrip s).length ≤ 200) →
       (∀ u, (extractWithOcr env).1 = some u → (pystrip u).length ≤ 200) →
       (extract_from_pdf env).1 = none) := by
  refine ⟨?_, ?_, ?_⟩
  · intro h
    unfold extract_from_pdf
    rw [h]
  · intro hp hc
    have hplumb : extractWithPdfplumber env = none := by
      unfold extractWithPdfplumber
      rw [hp]
    have hocr : (extractWithOcr env).1 = none := by
      unfold extractWithOcr
      cases hw : env.writeTemp with
      | error e => rfl
      | ok u =>
        rw [hc]
    cases hf : env.fetch with
    | error e =>
      unfold extract_from_pdf
      rw [hf]
    | ok b =>
      unfold extract_from_pdf
      rw [hf, hplumb]
      exact ocrBranch_none_of_short env (fun u hu => absurd (hocr ▸ hu) (by simp))
  · intro h1 h2
    cases hf : env.fetch with
    | error e =>
      unfold extract_from_pdf
      rw [hf]
    | ok b =>
      unfold extract_from_pdf
      rw [hf]
      cases hp : extractWithPdfplumber env with
      | none => exact ocrBranch_none_of_short env h2
      | some s =>
        dsimp only
        have hgate : ¬(s ≠ [] ∧ 200 < (pystrip s).length) := by
          intro hcond
          have := h1 s hp
          omega
        rw [if_neg hgate]
        exact ocrBranch_none_of_short env h2

/-- Witness for C6 at an environment whose fetch raises. -/
theorem extract_total_on_failures_witness :
    extract_from_pdf
      ⟨Except.error (), Except.ok [], Except.ok (), Except.ok [], true⟩
      = (none, []) :=
  (extract_total_on_failures
      ⟨Except.error (), Except.ok [], Except.ok (), Except.ok [], true⟩).1 rfl

/-- Claim C9 exhibits a bug: when writing the PDF bytes to the temporary
file raises (the write sits between the file's creation and the inner
`try/finally`), the outer handler returns `None` but the created temporary
file is never deleted; by contrast, once the write has succeeded, even a
failing conversion reaches the `finally` and the file is deleted. -/
theorem ocr_temp_leak_on_write_failure :
    ((extractWithOcr
        ⟨Except.ok [], Except.error (), Except.error (), Except.error (), true⟩).1
      = none)
    ∧ FsEvent.tempCreated ∈ (extractWithOcr
        ⟨Except.ok [], Except.error (), Except.error (), Except.error (), true⟩).2
    ∧ FsEvent.tempDeleted ∉ (extractWithOcr
        ⟨Except.ok [], Except.error (), Except.error (), Except.error (), true⟩).2
    ∧ FsEvent.tempDeleted ∈ (extractWithOcr
        ⟨Except.ok [], Except.error (), Except.ok (), Except.error (), true⟩).2 := by
  decide

end DnrScraper
